import Mathlib

/-!
Verification of the Product CRUD core of `99tech-code-challenge`
(`src/crud-server`): the `Product` entity and its validation hook, the
`TypeOrmProductRepository` adapter, the `ProductService` orchestration
layer, and the HTTP-facing create validator.

The embedding is shallow: each TypeScript function is translated into an
executable Lean definition.  JavaScript `number` values for `price` and
`stock` are modelled as rationals (`ℚ`), so that non-integral stock values
are representable and `Number.isInteger(x)` becomes `x.den = 1`.  Database
ids are natural numbers (`Option Nat` on the entity, since an id is absent
before the first persist).  Timestamps are ticks of a logical clock carried
by the store state: `@CreateDateColumn` / `@UpdateDateColumn` assign the
current tick on insert / save.
-/

namespace CrudServer

/-- Modelled from ECMAScript `String.prototype.trim` (used by
`Product.validate` and the HTTP validator as `name.trim()`): removes
leading and trailing whitespace. -/
def jsTrim (s : String) : String :=
  ⟨((s.data.dropWhile Char.isWhitespace).reverse.dropWhile Char.isWhitespace).reverse⟩

/-- The `Product` entity, `src/crud-server/src/domain/entities/Product.ts`.
`id` is absent before the first persist.  `createdAt` / `updatedAt` are
logical-clock ticks, assigned by the store on insert / save. -/
structure Product where
  id : Option Nat
  name : String
  description : String
  price : ℚ
  stock : ℚ
  createdAt : Nat
  updatedAt : Nat
deriving Repr, DecidableEq

/-- `Product.validate` (Product.ts lines 37-53), the `@BeforeInsert` /
`@BeforeUpdate` hook: four fail-fast checks, each raising the message the
source throws.  `!this.name` is true for the empty string. -/
def Product.validate (p : Product) : Except String Unit :=
  if p.name = "" ∨ (jsTrim p.name).length = 0 then
    .error "Product name is required"
  else if p.name.length > 255 then
    .error "Product name must not exceed 255 characters"
  else if p.price < 0 then
    .error "Product price must be greater than or equal to 0"
  else if p.stock < 0 then
    .error "Product stock must be greater than or equal to 0"
  else
    .ok ()

/-- `Product.create` (Product.ts lines 58-70): factory building an
instance with no id; timestamps are not yet assigned (the store overwrites
them on insert), so they hold the placeholder `0`. -/
def Product.create (name description : String) (price stock : ℚ) : Product :=
  { id := none, name := name, description := description,
    price := price, stock := stock, createdAt := 0, updatedAt := 0 }

/-- Modelled from the TypeORM/SQLite backing store consumed by
`TypeOrmProductRepository` (an external library): a table of rows, the
`AUTOINCREMENT` counter for `@PrimaryGeneratedColumn` (ids start at 1 and
are never reused), and a logical clock for the timestamp columns. -/
structure OrmState where
  rows : List Product
  nextId : Nat
  clock : Nat
deriving Repr, DecidableEq

/-- The empty store, as created by a fresh database connection. -/
def OrmState.empty : OrmState := { rows := [], nextId := 1, clock := 0 }

/-- Modelled from TypeORM `Repository.save`: runs the entity's
`@BeforeInsert`/`@BeforeUpdate` validation hook first (an invalid entity
raises and nothing is written); then inserts (assigning id and both
timestamps) when the entity has no id, overwrites the row with the same id
(refreshing `updatedAt`) when one exists, and otherwise inserts under the
given id.  Returns the stored entity. -/
def ormSave (s : OrmState) (p : Product) : Except String (Product × OrmState) :=
  match p.validate with
  | .error e => .error e
  | .ok _ =>
    match p.id with
    | none =>
      let stored := { p with id := some s.nextId, createdAt := s.clock, updatedAt := s.clock }
      .ok (stored, { rows := s.rows ++ [stored], nextId := s.nextId + 1, clock := s.clock + 1 })
    | some j =>
      if s.rows.any (fun r => r.id == some j) then
        let stored := { p with updatedAt := s.clock }
        .ok (stored,
          { s with rows := s.rows.map (fun r => if r.id == some j then stored else r),
                   clock := s.clock + 1 })
      else
        let stored := { p with updatedAt := s.clock }
        .ok (stored,
          { rows := s.rows ++ [stored], nextId := max s.nextId (j + 1), clock := s.clock + 1 })

/-- Modelled from TypeORM `Repository.findOne({ where: { id } })`. -/
def ormFindOne (s : OrmState) (i : Nat) : Option Product :=
  s.rows.find? (fun r => r.id == some i)

/-- Modelled from TypeORM `Repository.delete(id)`: removes the rows with
that id and reports through `result.affected` whether any row was removed. -/
def ormDelete (s : OrmState) (i : Nat) : Bool × OrmState :=
  let remaining := s.rows.filter (fun r => r.id != some i)
  (remaining.length < s.rows.length, { s with rows := remaining })

/-- Modelled from TypeORM `Repository.find({ order: { createdAt: 'DESC' } })`:
the rows sorted by `createdAt`, newest first (insertion sort, stable). -/
def insertDesc (p : Product) : List Product → List Product
  | [] => [p]
  | q :: qs => if p.createdAt ≤ q.createdAt then q :: insertDesc p qs else p :: q :: qs

/-- Sort a row list by `createdAt` descending (see `insertDesc`). -/
def sortByCreatedAtDesc (l : List Product) : List Product :=
  l.foldr insertDesc []

/-- The `ProductRepository` port,
`src/crud-server/src/domain/repositories/ProductRepository.ts`, as a record
of operations over an abstract store state `σ` (the service is written
against this interface and receives an implementation by constructor
injection). -/
structure RepoPort (σ : Type) where
  create : σ → Product → Except String (Product × σ)
  findById : σ → Nat → Option Product
  findAll : σ → List Product
  update : σ → Product → Except String (Product × σ)
  delete : σ → Nat → Bool × σ

/-- The JavaScript truthiness test `!product.id` used by
`TypeOrmProductRepository.update`: true when the id is `undefined` and
also when it is `0`. -/
def idFalsy : Option Nat → Bool
  | none => true
  | some j => j == 0

/-- `TypeOrmProductRepository`
(`src/crud-server/src/infrastructure/repositories`, provided as
`src/unnamed/part_001`): the adapter implementing the port over the
TypeORM store.  `update` rejects a falsy id with the thrown message, then
delegates to `save` and returns the entity it was passed. -/
def TypeOrmProductRepository : RepoPort OrmState where
  create s p := ormSave s p
  findById s i := ormFindOne s i
  findAll s := sortByCreatedAtDesc s.rows
  update s p :=
    if idFalsy p.id then .error "Product ID is required for update"
    else
      match ormSave s p with
      | .error e => .error e
      | .ok (_, s1) => .ok (p, s1)
  delete s i := ormDelete s i

/-- The message thrown by `ProductService.getProductById` for a missing id. -/
def notFoundMsg (i : Nat) : String :=
  "Product with ID " ++ toString i ++ " not found"

/-- The message thrown by `ProductService.deleteProduct` when the
repository removed nothing. -/
def deleteFailedMsg (i : Nat) : String :=
  "Failed to delete product with ID " ++ toString i

namespace ProductService

/-- `ProductService.createProduct` (ProductService.ts lines 16-24). -/
def createProduct {σ : Type} (R : RepoPort σ) (s : σ) (name description : String)
    (price stock : ℚ) : Except String (Product × σ) :=
  R.create s (Product.create name description price stock)

/-- `ProductService.getProductById` (ProductService.ts lines 29-37):
lookup-or-fail. -/
def getProductById {σ : Type} (R : RepoPort σ) (s : σ) (i : Nat) : Except String Product :=
  match R.findById s i with
  | none => .error (notFoundMsg i)
  | some p => .ok p

/-- `ProductService.getAllProducts` (ProductService.ts lines 42-44). -/
def getAllProducts {σ : Type} (R : RepoPort σ) (s : σ) : List Product :=
  R.findAll s

/-- The four `if (x !== undefined)` field overwrites of
`ProductService.updateProduct` (ProductService.ts lines 59-62), applied to
the fetched entity. -/
def mergeUpdate (p : Product) (nameOpt descriptionOpt : Option String)
    (priceOpt stockOpt : Option ℚ) : Product :=
  let p1 := match nameOpt with | some n => { p with name := n } | none => p
  let p2 := match descriptionOpt with | some d => { p1 with description := d } | none => p1
  let p3 := match priceOpt with | some x => { p2 with price := x } | none => p2
  match stockOpt with | some x => { p3 with stock := x } | none => p3

/-- `ProductService.updateProduct` (ProductService.ts lines 49-65):
lookup-or-fail, merge provided fields onto the fetched entity, pass the
merged entity whole to repository `update`. -/
def updateProduct {σ : Type} (R : RepoPort σ) (s : σ) (i : Nat)
    (nameOpt descriptionOpt : Option String) (priceOpt stockOpt : Option ℚ) :
    Except String (Product × σ) :=
  match getProductById R s i with
  | .error e => .error e
  | .ok existing => R.update s (mergeUpdate existing nameOpt descriptionOpt priceOpt stockOpt)

/-- `ProductService.deleteProduct` (ProductService.ts lines 70-79):
lookup-or-fail, then repository `delete`, failing when nothing was
removed. -/
def deleteProduct {σ : Type} (R : RepoPort σ) (s : σ) (i : Nat) : Except String σ :=
  match getProductById R s i with
  | .error e => .error e
  | .ok _ =>
    let r := R.delete s i
    if r.1 then .ok r.2 else .error (deleteFailedMsg i)

end ProductService

/-- `ProductValidator.validateCreateProduct`
(`src/crud-server/src/presentation/middlewares/validation.ts` lines 11-50):
collects one error string per violated field check.  A request-body field
that is absent is `none`; the `typeof` checks are discharged by the types
of the model.  `!name` is true for an absent or empty name. -/
def validateCreateProduct (nameOpt descriptionOpt : Option String)
    (priceOpt stockOpt : Option ℚ) : List String :=
  let e1 : List String :=
    match nameOpt with
    | none => ["Name is required and must be a non-empty string"]
    | some n =>
      if n = "" ∨ (jsTrim n).length = 0 then
        ["Name is required and must be a non-empty string"]
      else []
  let e2 : List String :=
    match descriptionOpt with
    | none => ["Description is required and must be a string"]
    | some _ => []
  let e3 : List String :=
    match priceOpt with
    | none => ["Price is required and must be a non-negative number"]
    | some x => if x < 0 then ["Price is required and must be a non-negative number"] else []
  let e4 : List String :=
    match stockOpt with
    | none => ["Stock is required and must be a non-negative integer"]
    | some x =>
      if x < 0 ∨ x.den ≠ 1 then ["Stock is required and must be a non-negative integer"] else []
  e1 ++ e2 ++ e3 ++ e4

/-- Outcome of an HTTP request as the middleware chain resolves it:
rejected by the validator with status 400, an error thrown by the
service/entity (handled by `errorHandler`), or success. -/
inductive HttpResult (α : Type) where
  | badRequest (errors : List String)
  | thrown (msg : String)
  | ok (value : α)
deriving Repr, DecidableEq

/-- The `POST /api/products` pipeline
(`productRoutes.ts`: `validateCreateProduct` then
`ProductController.createProduct`): the validator rejects with its error
list, otherwise the controller destructures the body and calls the
service, whose result or thrown error is returned.  The final arm is
unreachable: an empty error list forces every field to be present. -/
def httpCreateProduct (s : OrmState) (nameOpt descriptionOpt : Option String)
    (priceOpt stockOpt : Option ℚ) : HttpResult Product × OrmState :=
  let errs := validateCreateProduct nameOpt descriptionOpt priceOpt stockOpt
  if errs.isEmpty then
    match nameOpt, descriptionOpt, priceOpt, stockOpt with
    | some n, some d, some x, some y =>
      match ProductService.createProduct TypeOrmProductRepository s n d x y with
      | .error m => (.thrown m, s)
      | .ok (p, s1) => (.ok p, s1)
    | _, _, _, _ => (.thrown "unreachable", s)
  else (.badRequest errs, s)

/-- One call of the service API, as reachable through the HTTP adapter:
the argument shapes are those of the five `ProductService` methods. -/
inductive Op where
  | createOp (name description : String) (price stock : ℚ)
  | getByIdOp (i : Nat)
  | getAllOp
  | updateOp (i : Nat) (nameOpt descriptionOpt : Option String) (priceOpt stockOpt : Option ℚ)
  | deleteOp (i : Nat)

/-- The store state after one service call: a failed call leaves the store
unchanged (every failure in the source is raised before anything is
written, or after a delete that removed nothing). -/
def step (s : OrmState) : Op → OrmState
  | .createOp n d x y =>
    match ProductService.createProduct TypeOrmProductRepository s n d x y with
    | .ok r => r.2
    | .error _ => s
  | .getByIdOp _ => s
  | .getAllOp => s
  | .updateOp i nOpt dOpt xOpt yOpt =>
    match ProductService.updateProduct TypeOrmProductRepository s i nOpt dOpt xOpt yOpt with
    | .ok r => r.2
    | .error _ => s
  | .deleteOp i =>
    match ProductService.deleteProduct TypeOrmProductRepository s i with
    | .ok s1 => s1
    | .error _ => s

/-- The store state after a sequence of service calls. -/
def run (s : OrmState) : List Op → OrmState
  | [] => s
  | op :: ops => run (step s op) ops

/-- Store well-formedness: every row carries an id below the
`AUTOINCREMENT` counter (true of every state the service can reach). -/
def OrmState.wf (s : OrmState) : Prop :=
  ∀ p ∈ s.rows, ∃ j, p.id = some j ∧ j < s.nextId

/-- The id `i` is dead in store `s`: below the counter (so it is never
handed out again) and carried by no row. -/
def absentId (s : OrmState) (i : Nat) : Prop :=
  i < s.nextId ∧ ∀ p ∈ s.rows, p.id ≠ some i

/-- The JavaScript number 2.5, a non-integral stock value. -/
def twoPointFive : ℚ := ⟨5, 2, by norm_num, by norm_num⟩

/-- A concrete stored product used by the witnesses. -/
def demoProduct : Product :=
  { id := some 1, name := "Laptop", description := "Gaming laptop",
    price := 1300, stock := 5, createdAt := 0, updatedAt := 0 }

/-- A store holding exactly `demoProduct` under id 1. -/
def demoState : OrmState := { rows := [demoProduct], nextId := 2, clock := 1 }

/-- A falsy id test that fails yields a nonzero concrete id. -/
theorem idFalsy_false {o : Option Nat} (h : idFalsy o = false) : ∃ j, o = some j ∧ j ≠ 0 := by
  cases o with
  | none => simp [idFalsy] at h
  | some j => exact ⟨j, rfl, by simpa [idFalsy] using h⟩

/-- Saving a valid entity that already carries an id succeeds, storing the
entity with `updatedAt` refreshed to the current tick. -/
theorem ormSave_some_id {s : OrmState} {p : Product} {j : Nat}
    (hv : p.validate = .ok ()) (hid : p.id = some j) :
    ∃ s1, ormSave s p = .ok ({ p with updatedAt := s.clock }, s1) := by
  unfold ormSave
  rw [hv, hid]
  dsimp only
  by_cases hany : s.rows.any (fun r => r.id == some j)
  · rw [if_pos hany]
    exact ⟨_, rfl⟩
  · rw [if_neg hany]
    exact ⟨_, rfl⟩

/-- A product whose id is explicitly set to the JavaScript-falsy value 0. -/
def zeroIdProduct : Product :=
  { id := some 0, name := "Ghost", description := "zero id", price := 1, stock := 1,
    createdAt := 0, updatedAt := 0 }

/-- A repository in which the entity exists but `delete` removes nothing:
the lost-race situation the OperationFailed branch is written for. -/
def raceyRepo : RepoPort Unit where
  create _ p := .ok (p, ())
  findById _ _ := some demoProduct
  findAll _ := []
  update _ p := .ok (p, ())
  delete _ _ := (false, ())

/-- The demo product with its price raised to 999, as stored by the
update (timestamp refreshed). -/
def demoRepriced : Product := { demoProduct with price := 999, updatedAt := 1 }

/-- The demo store after the price-only update. -/
def demoStateRepriced : OrmState := { rows := [demoRepriced], nextId := 2, clock := 2 }

/-- Product A of the C6 scenario as stored (first insert, tick 0). -/
def wpA : Product :=
  { id := some 1, name := "Alpha", description := "a", price := 1, stock := 1,
    createdAt := 0, updatedAt := 0 }

/-- Product B of the C6 scenario as stored (second insert, tick 1). -/
def wpB : Product :=
  { id := some 2, name := "Beta", description := "b", price := 2, stock := 2,
    createdAt := 1, updatedAt := 1 }

/-- Product C of the C6 scenario as stored (third insert, tick 2). -/
def wpC : Product :=
  { id := some 3, name := "Gamma", description := "c", price := 3, stock := 3,
    createdAt := 2, updatedAt := 2 }

/-- The store after creating A. -/
def wsA : OrmState := { rows := [wpA], nextId := 2, clock := 1 }

/-- The store after creating A then B. -/
def wsB : OrmState := { rows := [wpA, wpB], nextId := 3, clock := 2 }

/-- The store after creating A then B then C. -/
def wsC : OrmState := { rows := [wpA, wpB, wpC], nextId := 4, clock := 3 }

/-! ### Helper lemmas -/

/-- The merge step copies `id` and the timestamps from the fetched entity
and takes each optional field from the argument when provided, from the
fetched entity otherwise. -/
theorem mergeUpdate_fields (p : Product) (nOpt dOpt : Option String) (xOpt yOpt : Option ℚ) :
    (ProductService.mergeUpdate p nOpt dOpt xOpt yOpt).id = p.id ∧
    (ProductService.mergeUpdate p nOpt dOpt xOpt yOpt).createdAt = p.createdAt ∧
    (ProductService.mergeUpdate p nOpt dOpt xOpt yOpt).updatedAt = p.updatedAt ∧
    (ProductService.mergeUpdate p nOpt dOpt xOpt yOpt).name = nOpt.getD p.name ∧
    (ProductService.mergeUpdate p nOpt dOpt xOpt yOpt).description = dOpt.getD p.description ∧
    (ProductService.mergeUpdate p nOpt dOpt xOpt yOpt).price = xOpt.getD p.price ∧
    (ProductService.mergeUpdate p nOpt dOpt xOpt yOpt).stock = yOpt.getD p.stock := by
  cases nOpt <;> cases dOpt <;> cases xOpt <;> cases yOpt <;>
    simp [ProductService.mergeUpdate, Option.getD]

/-- A successful `save` preserves store well-formedness. -/
theorem ormSave_wf {s : OrmState} {p q : Product} {s' : OrmState}
    (hw : s.wf) (h : ormSave s p = .ok (q, s')) : s'.wf := by
  unfold ormSave at h
  cases hv : p.validate with
  | error e => rw [hv] at h; exact absurd h (by simp)
  | ok u =>
    rw [hv] at h
    dsimp only at h
    cases hid : p.id with
    | none =>
      rw [hid] at h
      dsimp only at h
      simp only [Except.ok.injEq, Prod.mk.injEq] at h
      obtain ⟨-, h2⟩ := h
      subst h2
      intro r hr
      rcases List.mem_append.1 hr with hr | hr
      · obtain ⟨j, hj, hjlt⟩ := hw r hr
        exact ⟨j, hj, Nat.lt_succ_of_lt hjlt⟩
      · simp only [List.mem_singleton] at hr
        subst hr
        exact ⟨s.nextId, rfl, Nat.lt_succ_self _⟩
    | some j =>
      rw [hid] at h
      dsimp only at h
      by_cases hany : s.rows.any (fun r => r.id == some j)
      · rw [if_pos hany] at h
        simp only [Except.ok.injEq, Prod.mk.injEq] at h
        obtain ⟨-, h2⟩ := h
        subst h2
        obtain ⟨r0, hr0, hr0id⟩ := List.any_eq_true.1 hany
        obtain ⟨k, hk, hklt⟩ := hw r0 hr0
        have hjk : k = j := by
          rw [hk] at hr0id
          simpa using hr0id
        subst hjk
        intro r hr
        simp only [List.mem_map] at hr
        obtain ⟨r1, hr1, hr1eq⟩ := hr
        by_cases hc : r1.id == some k
        · rw [if_pos hc] at hr1eq
          subst hr1eq
          exact ⟨k, rfl, hklt⟩
        · rw [if_neg hc] at hr1eq
          subst hr1eq
          exact hw r1 hr1
      · rw [if_neg hany] at h
        simp only [Except.ok.injEq, Prod.mk.injEq] at h
        obtain ⟨-, h2⟩ := h
        subst h2
        intro r hr
        rcases List.mem_append.1 hr with hr | hr
        · obtain ⟨k, hk, hklt⟩ := hw r hr
          exact ⟨k, hk, lt_of_lt_of_le hklt (le_max_left _ _)⟩
        · simp only [List.mem_singleton] at hr
          subst hr
          exact ⟨j, rfl, lt_of_lt_of_le (Nat.lt_succ_self j) (le_max_right _ _)⟩

/-- A successful `save` of an entity that does not carry the dead id `i`
keeps `i` dead. -/
theorem ormSave_absent {s : OrmState} {p q : Product} {s' : OrmState} {i : Nat}
    (ha : absentId s i) (hp : p.id ≠ some i) (h : ormSave s p = .ok (q, s')) :
    absentId s' i := by
  obtain ⟨hlt, hrows⟩ := ha
  unfold ormSave at h
  cases hv : p.validate with
  | error e => rw [hv] at h; exact absurd h (by simp)
  | ok u =>
    rw [hv] at h
    dsimp only at h
    cases hid : p.id with
    | none =>
      rw [hid] at h
      dsimp only at h
      simp only [Except.ok.injEq, Prod.mk.injEq] at h
      obtain ⟨-, h2⟩ := h
      subst h2
      refine ⟨Nat.lt_succ_of_lt hlt, ?_⟩
      intro r hr
      rcases List.mem_append.1 hr with hr | hr
      · exact hrows r hr
      · simp only [List.mem_singleton] at hr
        subst hr
        intro he
        simp only [Option.some.injEq] at he
        omega
    | some j =>
      rw [hid] at h
      dsimp only at h
      have hji : j ≠ i := fun he => hp (by rw [hid, he])
      by_cases hany : s.rows.any (fun r => r.id == some j)
      · rw [if_pos hany] at h
        simp only [Except.ok.injEq, Prod.mk.injEq] at h
        obtain ⟨-, h2⟩ := h
        subst h2
        refine ⟨hlt, ?_⟩
        intro r hr
        simp only [List.mem_map] at hr
        obtain ⟨r1, hr1, hr1eq⟩ := hr
        by_cases hc : r1.id == some j
        · rw [if_pos hc] at hr1eq
          subst hr1eq
          simpa using fun he => hji he
        · rw [if_neg hc] at hr1eq
          subst hr1eq
          exact hrows r1 hr1
      · rw [if_neg hany] at h
        simp only [Except.ok.injEq, Prod.mk.injEq] at h
        obtain ⟨-, h2⟩ := h
        subst h2
        refine ⟨lt_of_lt_of_le hlt (le_max_left _ _), ?_⟩
        intro r hr
        rcases List.mem_append.1 hr with hr | hr
        · exact hrows r hr
        · simp only [List.mem_singleton] at hr
          subst hr
          simpa using fun he => hji he

/-- In a dead-id store, `findOne` misses. -/
theorem absentId_findOne_none {s : OrmState} {i : Nat} (ha : absentId s i) :
    ormFindOne s i = none := by
  unfold ormFindOne
  rw [List.find?_eq_none]
  intro r hr
  simpa using ha.2 r hr

/-- A successful service `deleteProduct` leaves a well-formed store in
which the deleted id is dead. -/
theorem deleteProduct_establishes_absent {s : OrmState} {i : Nat} {s' : OrmState}
    (hw : s.wf)
    (h : ProductService.deleteProduct TypeOrmProductRepository s i = .ok s') :
    s'.wf ∧ absentId s' i := by
  unfold ProductService.deleteProduct ProductService.getProductById at h
  cases hfind : TypeOrmProductRepository.findById s i with
  | none => rw [hfind] at h; dsimp only at h; exact absurd h (by simp)
  | some p =>
    rw [hfind] at h
    dsimp only at h
    by_cases hdel : (TypeOrmProductRepository.delete s i).1
    · rw [if_pos hdel] at h
      simp only [Except.ok.injEq] at h
      subst h
      have hmem : p ∈ s.rows := List.mem_of_find?_eq_some hfind
      have hpid : p.id = some i := by
        have := List.find?_some hfind
        simpa using this
      obtain ⟨k, hk, hklt⟩ := hw p hmem
      have hik : i < s.nextId := by
        rw [hpid] at hk
        simp only [Option.some.injEq] at hk
        omega
      constructor
      · intro r hr
        simp only [TypeOrmProductRepository, ormDelete, List.mem_filter] at hr
        exact hw r hr.1
      · refine ⟨hik, ?_⟩
        intro r hr
        simp only [TypeOrmProductRepository, ormDelete, List.mem_filter] at hr
        simpa using hr.2
    · rw [if_neg hdel] at h
      exact absurd h (by simp)

/-- One service call keeps the store well-formed and keeps a dead id dead:
no operation can resurrect a deleted id. -/
theorem step_preserves {s : OrmState} {i : Nat} (hw : s.wf) (ha : absentId s i) (op : Op) :
    (step s op).wf ∧ absentId (step s op) i := by
  cases op with
  | createOp n d x y =>
    simp only [step]
    cases hres : ProductService.createProduct TypeOrmProductRepository s n d x y with
    | error e => exact ⟨hw, ha⟩
    | ok r =>
      dsimp only
      unfold ProductService.createProduct at hres
      have hres2 : ormSave s (Product.create n d x y) = .ok (r.1, r.2) := hres
      exact ⟨ormSave_wf hw hres2, ormSave_absent ha (by simp [Product.create]) hres2⟩
  | getByIdOp j => exact ⟨hw, ha⟩
  | getAllOp => exact ⟨hw, ha⟩
  | updateOp j nOpt dOpt xOpt yOpt =>
    simp only [step]
    cases hres : ProductService.updateProduct TypeOrmProductRepository s j nOpt dOpt xOpt yOpt with
    | error e => exact ⟨hw, ha⟩
    | ok r =>
      dsimp only
      unfold ProductService.updateProduct ProductService.getProductById at hres
      cases hfind : TypeOrmProductRepository.findById s j with
      | none => rw [hfind] at hres; exact absurd hres (by simp)
      | some p =>
        rw [hfind] at hres
        dsimp only at hres
        set merged := ProductService.mergeUpdate p nOpt dOpt xOpt yOpt with hm
        have hupd : TypeOrmProductRepository.update s merged = .ok (r.1, r.2) := hres
        unfold TypeOrmProductRepository at hupd
        dsimp only at hupd
        by_cases hf : idFalsy merged.id
        · rw [if_pos hf] at hupd; exact absurd hupd (by simp)
        · rw [if_neg hf] at hupd
          cases hsave : ormSave s merged with
          | error e => rw [hsave] at hupd; exact absurd hupd (by simp)
          | ok w =>
            rw [hsave] at hupd
            dsimp only at hupd
            simp only [Except.ok.injEq, Prod.mk.injEq] at hupd
            have hs2 : w.2 = r.2 := hupd.2
            have hsave2 : ormSave s merged = .ok (w.1, r.2) := by
              rw [hsave, ← hs2]
            have hpmem : p ∈ s.rows := List.mem_of_find?_eq_some hfind
            have hpid : merged.id ≠ some i := by
              rw [hm, (mergeUpdate_fields p nOpt dOpt xOpt yOpt).1]
              exact ha.2 p hpmem
            exact ⟨ormSave_wf hw hsave2, ormSave_absent ha hpid hsave2⟩
  | deleteOp j =>
    simp only [step]
    cases hres : ProductService.deleteProduct TypeOrmProductRepository s j with
    | error e => exact ⟨hw, ha⟩
    | ok s1 =>
      dsimp only
      obtain ⟨hw1, -⟩ := deleteProduct_establishes_absent hw hres
      refine ⟨hw1, ?_⟩
      unfold ProductService.deleteProduct ProductService.getProductById at hres
      cases hfind : TypeOrmProductRepository.findById s j with
      | none => rw [hfind] at hres; exact absurd hres (by simp)
      | some p =>
        rw [hfind] at hres
        dsimp only at hres
        by_cases hdel : (TypeOrmProductRepository.delete s j).1
        · rw [if_pos hdel] at hres
          simp only [Except.ok.injEq] at hres
          subst hres
          refine ⟨ha.1, ?_⟩
          intro r hr
          simp only [TypeOrmProductRepository, ormDelete, List.mem_filter] at hr
          exact ha.2 r hr.1
        · rw [if_neg hdel] at hres; exact absurd hres (by simp)

/-- A run of service calls keeps the store well-formed and a dead id dead. -/
theorem run_preserves {s : OrmState} {i : Nat} (hw : s.wf) (ha : absentId s i) :
    ∀ ops : List Op, (run s ops).wf ∧ absentId (run s ops) i := by
  intro ops
  induction ops generalizing s with
  | nil => exact ⟨hw, ha⟩
  | cons op ops ih =>
    obtain ⟨hw1, ha1⟩ := step_preserves hw ha op
    exact ih hw1 ha1

/-- Inserting into the descending sort is a permutation of consing. -/
theorem insertDesc_perm (p : Product) (l : List Product) : List.Perm (insertDesc p l) (p :: l) := by
  induction l with
  | nil => exact List.Perm.refl _
  | cons q qs ih =>
    unfold insertDesc
    by_cases h : p.createdAt ≤ q.createdAt
    · rw [if_pos h]
      exact (ih.cons q).trans (List.Perm.swap p q qs)
    · rw [if_neg h]

/-- The descending sort returns exactly the stored rows, rearranged. -/
theorem sortByCreatedAtDesc_perm (l : List Product) : List.Perm (sortByCreatedAtDesc l) l := by
  induction l with
  | nil => exact List.Perm.refl _
  | cons p ps ih =>
    have h1 : sortByCreatedAtDesc (p :: ps) = insertDesc p (sortByCreatedAtDesc ps) := rfl
    rw [h1]
    exact (insertDesc_perm p (sortByCreatedAtDesc ps)).trans (ih.cons p)

/-- Inserting into a descending-sorted list keeps it descending-sorted. -/
theorem insertDesc_pairwise {p : Product} {l : List Product}
    (h : l.Pairwise (fun a b => b.createdAt ≤ a.createdAt)) :
    (insertDesc p l).Pairwise (fun a b => b.createdAt ≤ a.createdAt) := by
  induction l with
  | nil => simp [insertDesc]
  | cons q qs ih =>
    rw [List.pairwise_cons] at h
    obtain ⟨hq, hqs⟩ := h
    unfold insertDesc
    by_cases hc : p.createdAt ≤ q.createdAt
    · rw [if_pos hc]
      rw [List.pairwise_cons]
      refine ⟨?_, ih hqs⟩
      intro r hr
      rcases List.mem_cons.1 ((insertDesc_perm p qs).mem_iff.1 hr) with he | hm
      · subst he
        exact hc
      · exact hq r hm
    · rw [if_neg hc]
      rw [List.pairwise_cons]
      refine ⟨?_, List.pairwise_cons.2 ⟨hq, hqs⟩⟩
      intro r hr
      rcases List.mem_cons.1 hr with he | hm
      · subst he
        omega
      · have := hq r hm
        omega

/-- The descending sort is sorted by `createdAt`, newest first. -/
theorem sortByCreatedAtDesc_pairwise (l : List Product) :
    (sortByCreatedAtDesc l).Pairwise (fun a b => b.createdAt ≤ a.createdAt) := by
  induction l with
  | nil => simp [sortByCreatedAtDesc]
  | cons p ps ih =>
    have h1 : sortByCreatedAtDesc (p :: ps) = insertDesc p (sortByCreatedAtDesc ps) := rfl
    rw [h1]
    exact insertDesc_pairwise ih

/-- Trimming the empty string yields the empty string. -/
theorem jsTrim_empty : jsTrim "" = "" := rfl

/-- The first check of `validate` fires exactly when the name trims to
nothing (the `!this.name` disjunct is subsumed: an empty name trims to the
empty string). -/
theorem validate_name_cond (p : Product) :
    (p.name = "" ∨ (jsTrim p.name).length = 0) ↔ (jsTrim p.name).length = 0 := by
  constructor
  · rintro (he | hl)
    · rw [he, jsTrim_empty]
      rfl
    · exact hl
  · exact Or.inr

/-! ### Claims -/

/-- C2, counterexample: with a valid name and price but the non-integral
stock 2.5, `validate()` succeeds, although the claim requires the check
"stock ≥ 0 and integral" to fail — the entity hook never tests
integrality. -/
theorem C2_counterexample_nonintegral_stock :
    (Product.create "Laptop" "Gaming laptop" 1300 twoPointFive).validate = .ok () ∧
    twoPointFive.den ≠ 1 ∧ 0 ≤ twoPointFive := by
  refine ⟨?_, by decide, by decide⟩
  rfl

/-- C2 (amended): `validate()` performs exactly, in order and failing
fast: (1) name non-empty after trimming, (2) name length ≤ 255,
(3) price ≥ 0, (4) stock ≥ 0 — with no integrality test on stock — and
succeeds iff all four hold; each failure raises the corresponding
message. -/
theorem C2_validate_characterization (p : Product) :
    (p.validate = .ok () ↔
      ((jsTrim p.name).length ≠ 0 ∧ p.name.length ≤ 255 ∧ 0 ≤ p.price ∧ 0 ≤ p.stock)) ∧
    (p.validate = .error "Product name is required" ↔ (jsTrim p.name).length = 0) ∧
    (p.validate = .error "Product name must not exceed 255 characters" ↔
      ((jsTrim p.name).length ≠ 0 ∧ 255 < p.name.length)) ∧
    (p.validate = .error "Product price must be greater than or equal to 0" ↔
      ((jsTrim p.name).length ≠ 0 ∧ p.name.length ≤ 255 ∧ p.price < 0)) ∧
    (p.validate = .error "Product stock must be greater than or equal to 0" ↔
      ((jsTrim p.name).length ≠ 0 ∧ p.name.length ≤ 255 ∧ 0 ≤ p.price ∧ p.stock < 0)) := by
  unfold Product.validate
  by_cases h1 : (jsTrim p.name).length = 0
  · rw [if_pos ((validate_name_cond p).2 h1)]
    refine ⟨?_, ?_, ?_, ?_, ?_⟩ <;> simp [h1]
  · rw [if_neg (fun hc => h1 ((validate_name_cond p).1 hc))]
    by_cases h2 : p.name.length > 255
    · rw [if_pos h2]
      refine ⟨?_, ?_, ?_, ?_, ?_⟩ <;> simp [h1, h2]
    · rw [if_neg h2]
      by_cases h3 : p.price < 0
      · rw [if_pos h3]
        refine ⟨?_, ?_, ?_, ?_, ?_⟩ <;>
          simp [h1, Nat.le_of_not_lt h2, h3, not_le.2 h3]
      · rw [if_neg h3]
        by_cases h4 : p.stock < 0
        · rw [if_pos h4]
          refine ⟨?_, ?_, ?_, ?_, ?_⟩ <;>
            simp [h1, Nat.le_of_not_lt h2, not_lt.1 h3, h4, not_le.2 h4]
        · rw [if_neg h4]
          refine ⟨?_, ?_, ?_, ?_, ?_⟩ <;>
            simp [h1, Nat.le_of_not_lt h2, not_lt.1 h3, not_lt.1 h4]

/-- C9: the entity-level `validate()` imposes no constraint on
`description`: its verdict is unchanged under any replacement of the
description, and it succeeds whenever name (after trimming), name length,
price and stock are in range, whatever the description holds. -/
theorem C9_validate_ignores_description (p : Product) :
    (∀ d : String, Product.validate { p with description := d } = p.validate) ∧
    ((jsTrim p.name).length ≠ 0 → p.name.length ≤ 255 → 0 ≤ p.price → 0 ≤ p.stock →
      p.validate = .ok ()) := by
  constructor
  · intro d
    rfl
  · intro h1 h2 h3 h4
    unfold Product.validate
    rw [if_neg (fun hc => h1 ((validate_name_cond p).1 hc)),
        if_neg (Nat.not_lt.2 h2), if_neg (not_lt.2 h3), if_neg (not_lt.2 h4)]

/-- C9 witness: a concrete valid product validates successfully, and
replacing its description by the empty string does not change the
verdict. -/
theorem C9_witness :
    Product.validate { demoProduct with description := "" } = demoProduct.validate ∧
    demoProduct.validate = .ok () := by
  exact ⟨(C9_validate_ignores_description demoProduct).1 "",
    (C9_validate_ignores_description demoProduct).2 (by decide) (by decide) (by decide)
      (by decide)⟩

/-- C8, counterexample: a valid product whose id is set (to 0) is
nevertheless rejected by repository `update` with the InvalidArgument
message, because the source tests JavaScript truthiness (`!product.id`),
not presence. -/
theorem C8_counterexample_zero_id :
    zeroIdProduct.id = some 0 ∧
    TypeOrmProductRepository.update demoState zeroIdProduct =
      .error "Product ID is required for update" := by
  exact ⟨rfl, rfl⟩

/-- C8 (amended): repository `update` fails with the InvalidArgument
message iff `product.id` is falsy (absent or 0), persisting nothing; for
a truthy id it hands the full entity to `save` — propagating the
validation error of an invalid entity, and for a valid one persisting it
(with `updatedAt` refreshed) and returning that same entity. -/
theorem C8_repoUpdate_characterization (s : OrmState) (p : Product) :
    (idFalsy p.id = true →
      TypeOrmProductRepository.update s p = .error "Product ID is required for update") ∧
    (idFalsy p.id = false → ∀ e, p.validate = .error e →
      TypeOrmProductRepository.update s p = .error e) ∧
    (idFalsy p.id = false → p.validate = .ok () →
      ∃ s1, ormSave s p = .ok ({ p with updatedAt := s.clock }, s1) ∧
        TypeOrmProductRepository.update s p = .ok (p, s1)) := by
  refine ⟨?_, ?_, ?_⟩
  · intro hf
    unfold TypeOrmProductRepository
    dsimp only
    rw [if_pos hf]
  · intro hf e hv
    unfold TypeOrmProductRepository
    dsimp only
    rw [if_neg (by rw [hf]; exact Bool.false_ne_true)]
    have hsave : ormSave s p = .error e := by
      unfold ormSave
      rw [hv]
    rw [hsave]
  · intro hf hv
    obtain ⟨j, hid, hj0⟩ := idFalsy_false hf
    obtain ⟨s1, hs1⟩ := ormSave_some_id hv hid
    refine ⟨s1, hs1, ?_⟩
    unfold TypeOrmProductRepository
    dsimp only
    rw [if_neg (by rw [hf]; exact Bool.false_ne_true), hs1]

/-- C8 witness: the stored demo product has a truthy id and passes
validation, so `update` saves it (refreshing `updatedAt`) and returns the
very entity it was given. -/
theorem C8_witness :
    ∃ s1, ormSave demoState demoProduct = .ok ({ demoProduct with updatedAt := 1 }, s1) ∧
      TypeOrmProductRepository.update demoState demoProduct = .ok (demoProduct, s1) := by
  exact (C8_repoUpdate_characterization demoState demoProduct).2.2 rfl rfl

/-- C1: for every id and every combination of provided/omitted optional
fields, `updateProduct` first does the lookup-or-fail — a missing id fails
with NotFound and nothing reaches the repository — and on a hit hands the
repository `update` the complete merged entity: each field that was
explicitly provided (`some`, so 0 and the empty string count) overwrites
the fetched value, every omitted field and the id and timestamps are the
fetched ones. -/
theorem C1_updateProduct_partial_merge {σ : Type} (R : RepoPort σ) (s : σ) (i : Nat)
    (nOpt dOpt : Option String) (xOpt yOpt : Option ℚ) :
    (R.findById s i = none →
      ProductService.updateProduct R s i nOpt dOpt xOpt yOpt = .error (notFoundMsg i)) ∧
    (∀ p, R.findById s i = some p →
      ProductService.updateProduct R s i nOpt dOpt xOpt yOpt =
        R.update s (ProductService.mergeUpdate p nOpt dOpt xOpt yOpt) ∧
      (ProductService.mergeUpdate p nOpt dOpt xOpt yOpt).id = p.id ∧
      (ProductService.mergeUpdate p nOpt dOpt xOpt yOpt).createdAt = p.createdAt ∧
      (ProductService.mergeUpdate p nOpt dOpt xOpt yOpt).updatedAt = p.updatedAt ∧
      (ProductService.mergeUpdate p nOpt dOpt xOpt yOpt).name = nOpt.getD p.name ∧
      (ProductService.mergeUpdate p nOpt dOpt xOpt yOpt).description = dOpt.getD p.description ∧
      (ProductService.mergeUpdate p nOpt dOpt xOpt yOpt).price = xOpt.getD p.price ∧
      (ProductService.mergeUpdate p nOpt dOpt xOpt yOpt).stock = yOpt.getD p.stock) := by
  constructor
  · intro h
    unfold ProductService.updateProduct ProductService.getProductById
    rw [h]
  · intro p h
    constructor
    · unfold ProductService.updateProduct ProductService.getProductById
      rw [h]
    · exact mergeUpdate_fields p nOpt dOpt xOpt yOpt

/-- C1 witness: in the demo store, updating id 1 with a provided name and
the explicitly provided price 0 (falsy, but still provided) passes the
merged entity — fetched fields for everything omitted, 0 for the price —
to repository `update`. -/
theorem C1_witness :
    TypeOrmProductRepository.findById demoState 1 = some demoProduct ∧
    ProductService.updateProduct TypeOrmProductRepository demoState 1
        (some "Gaming Laptop") none (some 0) none =
      TypeOrmProductRepository.update demoState
        (ProductService.mergeUpdate demoProduct (some "Gaming Laptop") none (some 0) none) ∧
    (ProductService.mergeUpdate demoProduct (some "Gaming Laptop") none (some 0) none).price = 0 ∧
    (ProductService.mergeUpdate demoProduct (some "Gaming Laptop") none (some 0) none).stock =
      demoProduct.stock := by
  have h : TypeOrmProductRepository.findById demoState 1 = some demoProduct := rfl
  have hm := (C1_updateProduct_partial_merge TypeOrmProductRepository demoState 1
    (some "Gaming Laptop") none (some 0) none).2 demoProduct h
  exact ⟨h, hm.1, hm.2.2.2.2.2.2.1, hm.2.2.2.2.2.2.2⟩

/-- C4: `deleteProduct` first does the lookup-or-fail — a missing id
yields the NotFound message before any delete is attempted — then calls
repository `delete`; a `false` reply fails with the OperationFailed
message, and the call succeeds exactly when the lookup hit and the
repository reported a removal. -/
theorem C4_deleteProduct_spec {σ : Type} (R : RepoPort σ) (s : σ) (i : Nat) :
    (R.findById s i = none →
      ProductService.deleteProduct R s i = .error (notFoundMsg i)) ∧
    (∀ p, R.findById s i = some p → (R.delete s i).1 = false →
      ProductService.deleteProduct R s i = .error (deleteFailedMsg i)) ∧
    (∀ p, R.findById s i = some p → (R.delete s i).1 = true →
      ProductService.deleteProduct R s i = .ok (R.delete s i).2) ∧
    ((∃ s1, ProductService.deleteProduct R s i = .ok s1) ↔
      ((R.findById s i).isSome ∧ (R.delete s i).1 = true)) := by
  refine ⟨?_, ?_, ?_, ?_⟩
  · intro h
    unfold ProductService.deleteProduct ProductService.getProductById
    rw [h]
  · intro p h hd
    unfold ProductService.deleteProduct ProductService.getProductById
    rw [h]
    dsimp only
    rw [if_neg (by rw [hd]; exact Bool.false_ne_true)]
  · intro p h hd
    unfold ProductService.deleteProduct ProductService.getProductById
    rw [h]
    dsimp only
    rw [if_pos hd]
  · unfold ProductService.deleteProduct ProductService.getProductById
    cases h : R.findById s i with
    | none =>
      dsimp only
      constructor
      · rintro ⟨s1, hs1⟩
        exact absurd hs1 (by simp)
      · rintro ⟨hs, -⟩
        simp at hs
    | some p =>
      dsimp only
      by_cases hd : (R.delete s i).1
      · rw [if_pos hd]
        exact ⟨fun _ => ⟨rfl, hd⟩, fun _ => ⟨_, rfl⟩⟩
      · rw [if_neg hd]
        constructor
        · rintro ⟨s1, hs1⟩
          exact absurd hs1 (by simp)
        · rintro ⟨-, hs⟩
          exact absurd hs hd

/-- C4 witness: against the racey repository, the lookup hits but the
delete removes nothing, so `deleteProduct` fails with the OperationFailed
message; against the demo store it succeeds. -/
theorem C4_witness :
    ProductService.deleteProduct raceyRepo () 1 = .error (deleteFailedMsg 1) ∧
    ProductService.deleteProduct TypeOrmProductRepository demoState 1 =
      .ok { rows := [], nextId := 2, clock := 1 } := by
  constructor
  · exact (C4_deleteProduct_spec raceyRepo () 1).2.1 demoProduct rfl rfl
  · exact (C4_deleteProduct_spec TypeOrmProductRepository demoState 1).2.2.1 demoProduct rfl rfl

/-- The demo store is well-formed. -/
theorem demoState_wf : demoState.wf := by
  intro p hp
  simp only [demoState, List.mem_singleton] at hp
  subst hp
  exact ⟨1, rfl, by decide⟩

/-- C5: in every reachable situation (any well-formed store), once
`deleteProduct` has succeeded on an id, `getProductById` on that id fails
with NotFound after every further sequence of service calls: ids are never
reused, so deletion is terminal. -/
theorem C5_deleted_stays_not_found {s : OrmState} {i : Nat} {s1 : OrmState}
    (hw : s.wf)
    (hdel : ProductService.deleteProduct TypeOrmProductRepository s i = .ok s1)
    (ops : List Op) :
    ProductService.getProductById TypeOrmProductRepository (run s1 ops) i =
      .error (notFoundMsg i) := by
  obtain ⟨hw1, ha1⟩ := deleteProduct_establishes_absent hw hdel
  obtain ⟨-, ha2⟩ := run_preserves hw1 ha1 ops
  unfold ProductService.getProductById
  have h2 : TypeOrmProductRepository.findById (run s1 ops) i = none :=
    absentId_findOne_none ha2
  rw [h2]

/-- C5 witness: delete the demo product, then create another product and
fail another delete; the original id still answers NotFound. -/
theorem C5_witness :
    ProductService.deleteProduct TypeOrmProductRepository demoState 1 =
      .ok { rows := [], nextId := 2, clock := 1 } ∧
    ProductService.getProductById TypeOrmProductRepository
        (run { rows := [], nextId := 2, clock := 1 }
          [Op.createOp "Phone" "5G phone" 500 3, Op.deleteOp 1, Op.getAllOp]) 1 =
      .error (notFoundMsg 1) := by
  exact ⟨rfl, @C5_deleted_stays_not_found demoState 1 { rows := [], nextId := 2, clock := 1 }
    demoState_wf rfl _⟩

/-- C6: `getAllProducts` returns exactly the stored entities (a
permutation of the rows) sorted by `createdAt` descending, and creating
A then B then C from the empty store yields `[C, B, A]`. -/
theorem C6_getAllProducts_ordered :
    (∀ s : OrmState,
      List.Perm (ProductService.getAllProducts TypeOrmProductRepository s) s.rows ∧
      (ProductService.getAllProducts TypeOrmProductRepository s).Pairwise
        (fun a b => b.createdAt ≤ a.createdAt)) ∧
    (∀ (nA dA nB dB nC dC : String) (xA yA xB yB xC yC : ℚ)
      (pA pB pC : Product) (s1 s2 s3 : OrmState),
      ProductService.createProduct TypeOrmProductRepository OrmState.empty nA dA xA yA =
        .ok (pA, s1) →
      ProductService.createProduct TypeOrmProductRepository s1 nB dB xB yB = .ok (pB, s2) →
      ProductService.createProduct TypeOrmProductRepository s2 nC dC xC yC = .ok (pC, s3) →
      ProductService.getAllProducts TypeOrmProductRepository s3 = [pC, pB, pA]) := by
  constructor
  · intro s
    exact ⟨sortByCreatedAtDesc_perm s.rows, sortByCreatedAtDesc_pairwise s.rows⟩
  · intro nA dA nB dB nC dC xA yA xB yB xC yC pA pB pC s1 s2 s3 h1 h2 h3
    unfold ProductService.createProduct TypeOrmProductRepository at h1 h2 h3
    dsimp only at h1 h2 h3
    unfold ormSave at h1 h2 h3
    cases hv1 : (Product.create nA dA xA yA).validate with
    | error e => rw [hv1] at h1; exact absurd h1 (by simp)
    | ok u1 =>
      rw [hv1] at h1
      dsimp only [Product.create, OrmState.empty] at h1
      simp only [List.nil_append, Except.ok.injEq, Prod.mk.injEq] at h1
      obtain ⟨hpA, hs1⟩ := h1
      subst hpA
      subst hs1
      cases hv2 : (Product.create nB dB xB yB).validate with
      | error e => rw [hv2] at h2; exact absurd h2 (by simp)
      | ok u2 =>
        rw [hv2] at h2
        dsimp only [Product.create] at h2
        simp only [List.singleton_append, Except.ok.injEq, Prod.mk.injEq] at h2
        obtain ⟨hpB, hs2⟩ := h2
        subst hpB
        subst hs2
        cases hv3 : (Product.create nC dC xC yC).validate with
        | error e => rw [hv3] at h3; exact absurd h3 (by simp)
        | ok u3 =>
          rw [hv3] at h3
          dsimp only [Product.create] at h3
          simp only [List.cons_append, List.singleton_append, List.nil_append,
            Except.ok.injEq, Prod.mk.injEq] at h3
          obtain ⟨hpC, hs3⟩ := h3
          subst hpC
          subst hs3
          simp [ProductService.getAllProducts, TypeOrmProductRepository,
            sortByCreatedAtDesc, insertDesc]

/-- Replacing the rows that carry id `i` by `stored` (which itself
carries id `i`) makes `find?` return `stored`, provided some row with id
`i` was present. -/
theorem find?_map_replace {rows : List Product} {i : Nat} {p stored : Product}
    (hfind : rows.find? (fun r => r.id == some i) = some p)
    (hstid : stored.id = some i) :
    (rows.map (fun r => if r.id == some i then stored else r)).find?
      (fun r => r.id == some i) = some stored := by
  induction rows with
  | nil => simp at hfind
  | cons a as ih =>
    by_cases ha : (a.id == some i) = true
    · rw [List.map_cons, if_pos ha]
      simp [List.find?, hstid]
    · have ha2 : (a.id == some i) = false := eq_false_of_ne_true ha
      rw [List.map_cons, if_neg ha]
      simp only [List.find?, ha2] at hfind ⊢
      exact ih hfind

/-- Rows that do not carry id `i` survive the replacement untouched. -/
theorem mem_map_replace {rows : List Product} {i : Nat} {stored r : Product}
    (hr : r ∈ rows) (hrid : r.id ≠ some i) :
    r ∈ rows.map (fun q => if q.id == some i then stored else q) := by
  refine List.mem_map.2 ⟨r, hr, ?_⟩
  rw [if_neg (by simpa using hrid)]

/-- C3: any creation request whose name trims to nothing, or whose price
is negative, or whose stock is negative or non-integral, is rejected by
the HTTP create pipeline with a non-empty 400 error list, and the store is
returned unchanged: nothing is persisted. -/
theorem C3_invalid_creation_rejected (s : OrmState) (n d : String) (x y : ℚ)
    (h : (jsTrim n).length = 0 ∨ x < 0 ∨ y < 0 ∨ y.den ≠ 1) :
    ∃ es, es ≠ [] ∧
      httpCreateProduct s (some n) (some d) (some x) (some y) = (.badRequest es, s) := by
  have hne : validateCreateProduct (some n) (some d) (some x) (some y) ≠ [] := by
    unfold validateCreateProduct
    dsimp only
    intro hc
    rcases h with hh | hh | hh | hh
    · rw [if_pos (Or.inr hh)] at hc
      simp at hc
    · rw [if_pos hh] at hc
      simp at hc
    · rw [if_pos (Or.inl hh)] at hc
      simp at hc
    · rw [if_pos (Or.inr hh)] at hc
      simp at hc
  refine ⟨validateCreateProduct (some n) (some d) (some x) (some y), hne, ?_⟩
  unfold httpCreateProduct
  rw [if_neg (by simpa [List.isEmpty_iff] using hne)]

/-- C3 witness: the spec's own example — a valid name, description and
price but the non-integral stock 2.5 — is rejected with a 400 and the
empty store stays empty. -/
theorem C3_witness :
    ∃ es, es ≠ [] ∧
      httpCreateProduct OrmState.empty (some "Laptop") (some "Gaming laptop") (some 10)
        (some twoPointFive) = (.badRequest es, OrmState.empty) := by
  exact C3_invalid_creation_rejected OrmState.empty "Laptop" "Gaming laptop" 10 twoPointFive
    (Or.inr (Or.inr (Or.inr (by decide))))

/-- C7: updating an existing product with only the price provided leaves
the stored entity's name, description, stock, createdAt and id exactly as
fetched — whatever the new price is, only price (and `updatedAt`) can
change, and every row with a different id survives unchanged. -/
theorem C7_update_price_frame (s : OrmState) (i : Nat) (p : Product) (newPrice : ℚ)
    (h : TypeOrmProductRepository.findById s i = some p) :
    ∀ ret s1,
      ProductService.updateProduct TypeOrmProductRepository s i none none (some newPrice) none =
        .ok (ret, s1) →
      ∃ q, TypeOrmProductRepository.findById s1 i = some q ∧
        q.name = p.name ∧ q.description = p.description ∧ q.stock = p.stock ∧
        q.createdAt = p.createdAt ∧ q.id = p.id ∧ q.price = newPrice ∧
        (∀ r ∈ s.rows, r.id ≠ some i → r ∈ s1.rows) := by
  intro ret s1 hupd
  have hpid : p.id = some i := by
    have := List.find?_some h
    simpa using this
  unfold ProductService.updateProduct ProductService.getProductById at hupd
  rw [h] at hupd
  dsimp only [ProductService.mergeUpdate] at hupd
  have hupd2 : TypeOrmProductRepository.update s { p with price := newPrice } =
      .ok (ret, s1) := hupd
  unfold TypeOrmProductRepository at hupd2
  dsimp only at hupd2
  by_cases hf : idFalsy ({ p with price := newPrice } : Product).id
  · rw [if_pos hf] at hupd2
    exact absurd hupd2 (by simp)
  · rw [if_neg hf] at hupd2
    cases hsave : ormSave s { p with price := newPrice } with
    | error e => rw [hsave] at hupd2; exact absurd hupd2 (by simp)
    | ok w =>
      obtain ⟨w1, w2⟩ := w
      rw [hsave] at hupd2
      dsimp only at hupd2
      simp only [Except.ok.injEq, Prod.mk.injEq] at hupd2
      obtain ⟨-, hs1⟩ := hupd2
      subst hs1
      unfold ormSave at hsave
      cases hv : ({ p with price := newPrice } : Product).validate with
      | error e => rw [hv] at hsave; exact absurd hsave (by simp)
      | ok u =>
        rw [hv] at hsave
        dsimp only at hsave
        rw [hpid] at hsave
        dsimp only at hsave
        have hany : (s.rows.any fun r => r.id == some i) = true :=
          List.any_eq_true.2 ⟨p, List.mem_of_find?_eq_some h, by simp [hpid]⟩
        rw [if_pos hany] at hsave
        simp only [Except.ok.injEq, Prod.mk.injEq] at hsave
        obtain ⟨-, hst⟩ := hsave
        subst hst
        refine
          ⟨{ id := some i, name := p.name, description := p.description,
             price := newPrice, stock := p.stock, createdAt := p.createdAt,
             updatedAt := s.clock }, ?_, rfl, rfl, rfl, rfl, hpid.symm, rfl, ?_⟩
        · exact find?_map_replace h rfl
        · intro r hr hrid
          exact mem_map_replace hr hrid

/-- C7 witness: raising the demo product's price to 999 leaves name,
description, stock and createdAt as stored. -/
theorem C7_witness :
    ∃ q, TypeOrmProductRepository.findById demoStateRepriced 1 = some q ∧
      q.name = demoProduct.name ∧ q.description = demoProduct.description ∧
      q.stock = demoProduct.stock ∧ q.createdAt = demoProduct.createdAt ∧
      q.id = demoProduct.id ∧ q.price = 999 ∧
      (∀ r ∈ demoState.rows, r.id ≠ some 1 → r ∈ demoStateRepriced.rows) := by
  exact C7_update_price_frame demoState 1 demoProduct 999 rfl
    { demoProduct with price := 999 } demoStateRepriced rfl

/-- C10: updating an existing (valid, nonzero-id) product with all four
fields omitted is not a repository no-op: the fetched entity itself is
passed to repository `update` and returned — so the returned product
carries exactly the id, name, description, price and stock that
`getProductById` reports — and the store still performs a full save,
observable as the stored row's `updatedAt` being refreshed to the current
tick and the clock advancing. -/
theorem C10_update_no_fields_persists (s : OrmState) (i : Nat) (p : Product)
    (h : TypeOrmProductRepository.findById s i = some p)
    (hv : p.validate = .ok ()) (hi : i ≠ 0) :
    ProductService.getProductById TypeOrmProductRepository s i = .ok p ∧
    ∃ s1, ProductService.updateProduct TypeOrmProductRepository s i none none none none =
        .ok (p, s1) ∧
      TypeOrmProductRepository.findById s1 i = some { p with updatedAt := s.clock } ∧
      s1.clock = s.clock + 1 := by
  have hpid : p.id = some i := by
    have := List.find?_some h
    simpa using this
  constructor
  · unfold ProductService.getProductById
    rw [h]
  · unfold ProductService.updateProduct ProductService.getProductById
    rw [h]
    dsimp only [ProductService.mergeUpdate]
    unfold TypeOrmProductRepository
    dsimp only
    rw [if_neg (by simp [idFalsy, hpid, hi])]
    have hany : (s.rows.any fun r => r.id == some i) = true :=
      List.any_eq_true.2 ⟨p, List.mem_of_find?_eq_some h, by simp [hpid]⟩
    have hsave : ormSave s p = .ok ({ p with updatedAt := s.clock },
        { s with rows := s.rows.map (fun r => if r.id == some i then
            { p with updatedAt := s.clock } else r), clock := s.clock + 1 }) := by
      unfold ormSave
      rw [hv, hpid]
      dsimp only
      rw [if_pos hany]
    rw [hsave]
    refine ⟨_, rfl, ?_, rfl⟩
    exact find?_map_replace h (by simpa using hpid)

/-- C10 witness: the no-field update of the stored demo product returns
that very product and refreshes the stored row's `updatedAt`. -/
theorem C10_witness :
    ProductService.getProductById TypeOrmProductRepository demoState 1 = .ok demoProduct ∧
    ∃ s1, ProductService.updateProduct TypeOrmProductRepository demoState 1
        none none none none = .ok (demoProduct, s1) ∧
      TypeOrmProductRepository.findById s1 1 = some { demoProduct with updatedAt := 1 } ∧
      s1.clock = demoState.clock + 1 := by
  exact C10_update_no_fields_persists demoState 1 demoProduct rfl rfl (by decide)

/-- C6 witness: creating Alpha, then Beta, then Gamma from the empty
store makes `getAllProducts` answer newest-first: Gamma, Beta, Alpha. -/
theorem C6_witness :
    ProductService.getAllProducts TypeOrmProductRepository wsC = [wpC, wpB, wpA] := by
  exact C6_getAllProducts_ordered.2 "Alpha" "a" "Beta" "b" "Gamma" "c" 1 1 2 2 3 3
    wpA wpB wpC wsA wsB wsC rfl rfl rfl

end CrudServer
